import Mathlib

/-!
Verification of the batch-translation core of the Foundry Journal Translator
module (batch client, item flag store, active job registry, recovery path).

The JavaScript source is embedded shallowly: pure computations become Lean
functions, the remote HTTP service and the host document store become explicit
environment/state parameters, notifications become output lists, and thrown
exceptions become explicit error branches mirroring the source's try/catch
structure.
-/

namespace JournalTranslator

/-! ## Item Flag Store (src/translation-flags.js)

A Foundry page flag is either absent (`getFlag` returns `undefined`) or holds a
value; we model each flag field as an `Option`.  `page.update` with an object
containing all four flag keys sets all four; `page.update` with the two dotted
keys `translationCompleted` / `translationQueued` sets exactly those two;
`unsetFlag` removes a key. -/

structure TranslationFlags where
  batchId : Option String
  batchIndex : Option Nat
  queued : Option Bool
  completed : Option Bool
deriving Repr, DecidableEq

/-- The unflagged state: a page on which no translation flag was ever set. -/
def TranslationFlags.unflagged : TranslationFlags :=
  { batchId := none, batchIndex := none, queued := none, completed := none }

/-- Source `setTranslationStartedFlags(page, batchId, batchIndex)`: one `page.update`
writing all four flag fields. -/
def setTranslationStartedFlags (_f : TranslationFlags) (batchId : String)
    (batchIndex : Nat) : TranslationFlags :=
  { batchId := some batchId, batchIndex := some batchIndex,
    queued := some true, completed := some false }

/-- Source `setTranslationCompletedFlags(page)`: one `page.update` writing only the
`translationCompleted` and `translationQueued` keys. -/
def setTranslationCompletedFlags (f : TranslationFlags) : TranslationFlags :=
  { f with completed := some true, queued := some false }

/-- Source `clearTranslationFlags(page)`: `unsetFlag` on each of the four keys. -/
def clearTranslationFlags (_f : TranslationFlags) : TranslationFlags :=
  TranslationFlags.unflagged

/-- The spec's per-item flag invariant: `completed=true` implies `queued=false`
(a missing `queued` flag also reads as false), and `batchIndex` is set iff
`batchId` is set. -/
def FlagInvariant (f : TranslationFlags) : Prop :=
  (f.completed = some true → f.queued ≠ some true) ∧
  (f.batchIndex.isSome ↔ f.batchId.isSome)

instance (f : TranslationFlags) : Decidable (FlagInvariant f) := by
  unfold FlagInvariant; infer_instance

/-! A journal entry page: stable id, name, text content, and the flag record.
`getTranslationFlags(page)` projects the four fields. -/

structure Page where
  id : String
  name : String
  content : String
  flags : TranslationFlags
deriving Repr, DecidableEq

/-- The effect of `setTranslationCompletedFlags` on a whole page document: the
`page.update` call touches only the two flag keys. -/
def markCompletedPage (p : Page) : Page :=
  { p with flags := setTranslationCompletedFlags p.flags }

/-! ## Active Job Registry (src/batch-queue.js)

`activeBatches` is a JS `Set`, modelled as a `Finset String`.  Each operation
guards on the truthiness of `batchId`; the empty string is falsy in JS, so all
operations treat it as an absent id. -/

/-- Source `addBatchToQueue(batchId)`. -/
def addBatchToQueue (s : Finset String) (batchId : String) : Finset String :=
  if batchId ≠ "" then insert batchId s else s

/-- Source `removeBatchFromQueue(batchId)`. -/
def removeBatchFromQueue (s : Finset String) (batchId : String) : Finset String :=
  if batchId ≠ "" ∧ batchId ∈ s then s.erase batchId else s

/-- Source `isBatchInQueue(batchId)` (JS `batchId && activeBatches.has(batchId)`
coerced to a boolean). -/
def isBatchInQueue (s : Finset String) (batchId : String) : Bool :=
  batchId ≠ "" ∧ batchId ∈ s

/-! ## Batch Client (src/openai-batch.js)

The remote service is an oracle (`BatchEnv`).  Each downloaded result line is
either unparseable (JSON.parse throws) or a record with a `custom_id` and
either an error body or a translated text (`choices[0].message.content`). -/

/-- JS `String.prototype.trim()`: strip leading and trailing whitespace. -/
def jsTrim (s : String) : String :=
  String.mk
    (((s.data.dropWhile Char.isWhitespace).reverse.dropWhile
      Char.isWhitespace).reverse)

/-- One line of the downloaded result stream, after JSON parsing. -/
inductive RawLine where
  | bad : RawLine
  | record : String → Except String String → RawLine
deriving Repr

/-- The JS `Map` built by `processResults`, as an association list with
`Map.set` semantics: an existing key is updated in place, a new key is
appended.  Keys are therefore always pairwise distinct. -/
def mapSet (m : List (String × String)) (k v : String) : List (String × String) :=
  if m.any (fun p => p.1 = k) then
    m.map (fun p => if p.1 = k then (k, v) else p)
  else
    m ++ [(k, v)]

/-- JS `Map.get`, with `Map.has` folded in: `none` when the key is absent. -/
def mapGet (m : List (String × String)) (k : String) : Option String :=
  (m.find? (fun p => p.1 = k)).map Prod.snd

/-- Loop body of `processResults`: walk the lines in order, skip (and log)
records whose body is an error, store successful texts under their
`custom_id`; an unparseable line throws out of the whole loop. -/
def processResultsAux (m : List (String × String)) :
    List RawLine → Except String (List (String × String))
  | [] => .ok m
  | .bad :: _ => .error "Unexpected token in JSON"
  | .record _ (.error _) :: rest => processResultsAux m rest
  | .record cid (.ok text) :: rest => processResultsAux (mapSet m cid text) rest

/-- Source `processResults(resultsResponse)`: build the tag → text map. -/
def processResults (lines : List RawLine) :
    Except String (List (String × String)) :=
  processResultsAux [] lines

/-- The successful records of a result stream, in arrival order: the
`(custom_id, translated text)` pairs of the lines that parse and carry no
error body.  This is the spec-level description of the stream against which
the built map is compared. -/
def successPairs (lines : List RawLine) : List (String × String) :=
  lines.filterMap (fun l =>
    match l with
    | .record cid (.ok text) => some (cid, text)
    | _ => none)

/-- The `custom_id`s of the successful records, in arrival order. -/
def successKeys (lines : List RawLine) : List String :=
  (successPairs lines).map Prod.fst

/-- The synthetic identifier `request-{index}` from `prepareBatch`. -/
def requestTag (i : Nat) : String :=
  "request-" ++ toString i

/-- Source `assembleFinalResults(translationsMap, originalLength)`: position `i` gets
the mapped text for `request-{i}`, or the empty string when absent. -/
def assembleFinalResults (m : List (String × String)) (originalLength : Nat) :
    List String :=
  (List.range originalLength).map (fun i => (mapGet m (requestTag i)).getD "")

/-! ### Polling (`pollBatchStatus`) -/

/-- The parsed body of `GET /batches/{id}`. -/
structure BatchStatusObj where
  status : String
  outputFileId : Option String
deriving Repr, DecidableEq

/-- One poll round trip: the HTTP response is either not ok (with the parsed
`error.message`) or a status object. -/
inductive PollResponse where
  | httpErr : String → PollResponse
  | ok : BatchStatusObj → PollResponse
deriving Repr, DecidableEq

/-- Outcome of the polling loop. -/
inductive PollResult where
  | ok : BatchStatusObj → PollResult
  | httpError : String → PollResult
  | timedOut : PollResult
deriving Repr, DecidableEq

/-- A terminal job status (`['completed', 'failed', 'cancelled'].includes`). -/
def isTerminal (status : String) : Bool :=
  status = "completed" ∨ status = "failed" ∨ status = "cancelled"

/-- One execution of the polling loop: `attempt` is the current loop index,
the `Nat` components count poll requests issued and delay intervals slept.
A non-terminal status sleeps the configured delay and retries, including
after the final attempt (the loop body sleeps before the loop condition is
re-tested). -/
def pollAux (poll : Nat → PollResponse) (attempt : Nat) :
    Nat → PollResult × Nat × Nat
  | 0 => (.timedOut, 0, 0)
  | fuel + 1 =>
    match poll attempt with
    | .httpErr msg => (.httpError msg, 1, 0)
    | .ok st =>
      if isTerminal st.status then (.ok st, 1, 0)
      else
        let r := pollAux poll (attempt + 1) fuel
        (r.1, r.2.1 + 1, r.2.2 + 1)

/-- Module settings consumed by the batch client. -/
structure Config where
  apiKey : String
  pollingDelaySec : Nat
  maxPollingAttempts : Nat
deriving Repr

/-- JS `Math.round((maxAttempts * pollingDelay) / 60000)` with
`pollingDelay = pollingDelaySec * 1000`; JS rounds half up. -/
def timeoutMinutes (cfg : Config) : Nat :=
  (2 * (cfg.maxPollingAttempts * (cfg.pollingDelaySec * 1000)) + 60000) / 120000

/-- The message of the timeout error thrown when the loop exhausts its
attempts. -/
def timeoutMessage (cfg : Config) : String :=
  "Batch job timed out after " ++ toString (timeoutMinutes cfg) ++ " minutes."

/-- Source `pollBatchStatus(batchId, apiKey)` as a function of the per-attempt poll
responses; also reports how many poll requests were issued and how many delay
intervals elapsed. -/
def pollBatchStatus (cfg : Config) (poll : Nat → PollResponse) :
    PollResult × Nat × Nat :=
  pollAux poll 0 cfg.maxPollingAttempts

/-- The view of `pollBatchStatus` its caller sees: either the returned status
object, or the message of the thrown error (`Polling Error: …` for a failed
poll request, the timeout message for an exhausted loop). -/
def pollBatchStatusResult (cfg : Config) (poll : Nat → PollResponse) :
    Except String BatchStatusObj :=
  match pollBatchStatus cfg poll with
  | (.ok st, _, _) => .ok st
  | (.httpError msg, _, _) => .error ("Polling Error: " ++ msg)
  | (.timedOut, _, _) => .error (timeoutMessage cfg)

/-- A poll response that keeps the loop going: HTTP success with a
non-terminal status. -/
def isNonTerminalOk : PollResponse → Bool
  | .ok st => !isTerminal st.status
  | .httpErr _ => false

/-! ### `callOpenAIBatch` -/

/-- The remote service as seen by one `callOpenAIBatch` run: the upload
response (`.ok fileId` or a non-success body's `error.message`), the job
creation response, the per-attempt poll responses, and the result-file
download keyed by the completed batch's `output_file_id` (which the code
passes along even when absent). -/
structure BatchEnv where
  upload : Except String String
  create : Except String String
  poll : Nat → PollResponse
  download : Option String → Except String (List RawLine)

/-- What one `callOpenAIBatch` run returns and observably does: the returned
`{batchId, translations}`, the caller-visible state as mutated by the
`onBatchCreated` callback, the `ui.notifications.error` messages in order,
and the `console` warn/error log. -/
structure BatchCallOutput (σ : Type) where
  batchId : Option String
  translations : List String
  state : σ
  errors : List String
  logs : List String
deriving Repr

/-- Source `callOpenAIBatch(textsToTranslate, options)`.  The caller-supplied
`onBatchCreated` callback is a state transformer that also reports whether it
threw; a throwing callback's state effects up to the throw are kept, the
error is logged, and processing continues.  Every `throw` site of the source
becomes an error branch that falls into the single `catch`, which reports one
consolidated `Batch translation failed: …` error and returns
`{batchId: null, translations: []}`. -/
def callOpenAIBatch {σ : Type} (cfg : Config) (env : BatchEnv)
    (textsToTranslate : List String) (onBatchCreated : String → σ → σ × Bool)
    (s : σ) : BatchCallOutput σ :=
  if jsTrim cfg.apiKey = "" then
    { batchId := none, translations := [], state := s,
      errors := ["OpenAI API Key is missing. Please enter your API key in the module settings."],
      logs := [] }
  else
    match env.upload with
    | .error msg =>
      { batchId := none, translations := [], state := s,
        errors := ["Batch translation failed: File Upload Failed: " ++ msg],
        logs := [] }
    | .ok _fileId =>
      match env.create with
      | .error msg =>
        { batchId := none, translations := [], state := s,
          errors := ["Batch translation failed: Batch Creation Failed: " ++ msg],
          logs := [] }
      | .ok jobId =>
        let cb := onBatchCreated jobId s
        let s1 := cb.1
        let logs1 := if cb.2 then ["onBatchCreated callback failed"] else []
        match pollBatchStatus cfg env.poll with
        | (.httpError msg, _, _) =>
          { batchId := none, translations := [], state := s1,
            errors := ["Failed to poll batch status: " ++ msg,
                       "Batch translation failed: Polling Error: " ++ msg],
            logs := logs1 }
        | (.timedOut, _, _) =>
          { batchId := none, translations := [], state := s1,
            errors := ["Batch translation failed: " ++ timeoutMessage cfg],
            logs := logs1 }
        | (.ok st, _, _) =>
          let statusErrs :=
            if st.status ≠ "completed" then
              ["Batch job failed with status: " ++ st.status]
            else []
          match env.download st.outputFileId with
          | .error msg =>
            { batchId := none, translations := [], state := s1,
              errors := statusErrs ++
                ["Batch translation failed: Failed to download results: " ++ msg],
              logs := logs1 }
          | .ok lines =>
            match processResults lines with
            | .error msg =>
              { batchId := none, translations := [], state := s1,
                errors := statusErrs ++ ["Batch translation failed: " ++ msg],
                logs := logs1 }
            | .ok translationsMap =>
              { batchId := some jobId,
                translations :=
                  assembleFinalResults translationsMap textsToTranslate.length,
                state := s1,
                errors := statusErrs,
                logs := logs1 }

/-! ## Apply helpers (src/utils.js)

`translatedContents[i]` in JS yields `undefined` past the end of the array;
`undefined` and `""` take the same skip branch (`!t || t.trim() === ""`), so
out-of-range access is modelled as the empty string. -/

/-- JS array indexing `l[i]`, with `undefined` collapsed to `""`. -/
def jsIdx (l : List String) (i : Nat) : String :=
  l.getD i ""

/-- One element of the update array passed to `updateEmbeddedDocuments`:
`{_id, 'text.content'}`. -/
structure PageUpdate where
  id : String
  content : String
deriving Repr, DecidableEq

/-- What an apply helper observably produces: the update/new-page array, the
`ui.notifications.warn` messages in order, and the `console.warn` log. -/
structure ApplyOut (α : Type) where
  out : List α
  warns : List String
  logs : List String
deriving Repr, DecidableEq

/-- Loop of the position-indexed `createPageUpdates` (the pre-flag variant of
utils.js): pairs page `i` with `translatedContents[i]`. -/
def createPageUpdatesByPositionGo (ts : List String)
    (transformer : String → String → String) :
    List Page → Nat → ApplyOut PageUpdate
  | [], _ => ⟨[], [], []⟩
  | p :: rest, i =>
    let t := jsIdx ts i
    let r := createPageUpdatesByPositionGo ts transformer rest (i + 1)
    if jsTrim t = "" then
      { r with warns :=
          ("Translation returned empty for page \x22" ++ p.name ++
            "\x22. Skipping this page.") :: r.warns }
    else
      { r with out := ⟨p.id, transformer p.content t⟩ :: r.out }

/-- The position-indexed `createPageUpdates(pagesToTranslate,
translatedContents, contentTransformer)`. -/
def createPageUpdatesByPosition (pages : List Page) (ts : List String)
    (transformer : String → String → String) : ApplyOut PageUpdate :=
  createPageUpdatesByPositionGo ts transformer pages 0

/-- The flag-indexed `createPageUpdates` (current utils.js): each page's
translation is looked up at its stored `batchIndex`; a page with no stored
index is skipped with a console warning. -/
def createPageUpdates (pages : List Page) (ts : List String)
    (transformer : String → String → String) : ApplyOut PageUpdate :=
  match pages with
  | [] => ⟨[], [], []⟩
  | p :: rest =>
    let r := createPageUpdates rest ts transformer
    match p.flags.batchIndex with
    | none =>
      { r with logs :=
          ("Page \x22" ++ p.name ++
            "\x22 has no batch index stored in flags. Skipping this page.") :: r.logs }
    | some batchIndex =>
      let t := jsIdx ts batchIndex
      if jsTrim t = "" then
        { r with warns :=
            ("Translation returned empty for page \x22" ++ p.name ++
              "\x22 (batch index " ++ toString batchIndex ++
              "). Skipping this page.") :: r.warns }
      else
        { r with out := ⟨p.id, transformer p.content t⟩ :: r.out }

/-- One element of the new-journal page data built by
`createTranslatedPagesData` (name and translated content; the remaining
fields are copied verbatim from the source page). -/
structure TranslatedPageData where
  name : String
  content : String
deriving Repr, DecidableEq

/-- The flag-indexed `createTranslatedPagesData(pagesToTranslate,
translatedContents)` (current utils.js). -/
def createTranslatedPagesData (pages : List Page) (ts : List String) :
    ApplyOut TranslatedPageData :=
  match pages with
  | [] => ⟨[], [], []⟩
  | p :: rest =>
    let r := createTranslatedPagesData rest ts
    match p.flags.batchIndex with
    | none =>
      { r with logs :=
          ("Page \x22" ++ p.name ++
            "\x22 has no batch index stored in flags. Skipping this page.") :: r.logs }
    | some batchIndex =>
      let t := jsIdx ts batchIndex
      if jsTrim t = "" then
        { r with warns :=
            ("Translation returned empty for page \x22" ++ p.name ++
              "\x22 (batch index " ++ toString batchIndex ++
              "). Skipping this page.") :: r.warns }
      else
        { r with out := ⟨p.name ++ " (Translated)", t⟩ :: r.out }

/-! ## Translation handlers and recovery (src/translation-handlers.js,
module entry file) -/

/-- The mutable world one translation request sees: the in-memory Active Job
Registry, the journal's pages (live documents), and journals created by the
`new` mode. -/
structure World where
  journalName : String
  queue : Finset String
  pages : List Page
  newJournals : List (List TranslatedPageData)
deriving DecidableEq

/-- Source `journal.updateEmbeddedDocuments("JournalEntryPage", pageUpdates)`:
apply each update to the page whose `_id` matches. -/
def updateEmbeddedDocuments (pages : List Page) (updates : List PageUpdate) :
    List Page :=
  pages.map (fun p =>
    match updates.find? (fun u => u.id = p.id) with
    | some u => { p with content := u.content }
    | none => p)

/-- The `append` mode content transformer. -/
def appendTransformer (original translated : String) : String :=
  original ++ "<hr style=\x22margin: 1em 0;\x22>" ++ translated

/-- The `prepend` mode content transformer. -/
def prependTransformer (original translated : String) : String :=
  translated ++ "<hr style=\x22margin: 1em 0;\x22>" ++ original

/-- Source `applyTranslationsWithMode(journal, pages, translations, mode)`:
dispatch to the mode handler; `append`/`prepend`/`replace` update the live
pages, anything else falls through to `handleNewJournalMode`, which creates a
new journal when at least one page survived filtering. -/
def applyTranslationsWithMode (mode : String) (w : World)
    (pagesArg : List Page) (translations : List String) : World :=
  if mode = "append" then
    { w with pages := (updateEmbeddedDocuments w.pages
        (createPageUpdates pagesArg translations appendTransformer).out) }
  else if mode = "prepend" then
    { w with pages := (updateEmbeddedDocuments w.pages
        (createPageUpdates pagesArg translations prependTransformer).out) }
  else if mode = "replace" then
    { w with pages := (updateEmbeddedDocuments w.pages
        (createPageUpdates pagesArg translations (fun _ t => t)).out) }
  else
    let data := (createTranslatedPagesData pagesArg translations).out
    if data.length > 0 then { w with newJournals := w.newJournals ++ [data] }
    else w

/-- Source `completeTranslation(pages)`: mark each of the given pages completed. -/
def completeTranslation (w : World) (pagesArg : List Page) : World :=
  { w with pages := w.pages.map (fun p =>
      if pagesArg.any (fun q => q.id = p.id) then markCompletedPage p else p) }

/-- JS truthiness of the returned `batchId`. -/
def jsTruthy (o : Option String) : Bool :=
  o.getD "" ≠ ""

/-- The `onBatchCreated` callback `translateJournal` passes to
`callOpenAIBatch`: add the created job id to the Active Job Registry, then
set started flags on each selected page with its position in the batch.  The
callback itself does not throw. -/
def translateJournalCallback (jobId : String) (w : World) : World × Bool :=
  ({ w with
      queue := addBatchToQueue w.queue jobId,
      pages := (w.pages.enum.map (fun ip =>
        { ip.2 with
            flags := setTranslationStartedFlags ip.2.flags jobId ip.1 })) },
    false)

/-- Source `translateJournal(journal, selectedPages)` (current
translation-handlers.js) with every content page selected: call the batch
client, and afterwards remove the batch from the registry only when the
returned `batchId` is truthy — both on the no-translations early return and
on the apply path. -/
def translateJournal (cfg : Config) (env : BatchEnv) (mode : String)
    (w : World) : World :=
  let pageContents := w.pages.map (fun p => p.content)
  if pageContents.length = 0 then w
  else
    let out := callOpenAIBatch cfg env pageContents translateJournalCallback w
    let w1 := out.state
    if out.translations.length = 0 then
      if jsTruthy out.batchId then
        { w1 with queue := (removeBatchFromQueue w1.queue (out.batchId.getD "")) }
      else w1
    else
      let w2 :=
        completeTranslation
          (applyTranslationsWithMode mode w1 w1.pages out.translations)
          w1.pages
      if jsTruthy out.batchId then
        { w2 with queue := (removeBatchFromQueue w2.queue (out.batchId.getD "")) }
      else w2

/-- The already-monitored guard of the context-menu restore handler: a
restore choice for a batch id that is in the Active Job Registry is refused
with an informational message before `attemptBatchRestoration` is reached. -/
def restoreGuardRefuses (w : World) (batchId : String) : Bool :=
  isBatchInQueue w.queue batchId

/-- Source `attemptBatchRestoration(batchId, pages)` (module entry file): enqueue
the id, re-poll the job, and on terminal `completed` download and parse the
results, reassemble with `assembleFinalResults(translationsMap,
pages.length)`, apply via the mode handler and mark the discovered pages
completed; every error path and every success path ends by removing the id
from the registry (the `finally` block). -/
def attemptBatchRestoration (cfg : Config) (env : BatchEnv) (mode : String)
    (batchId : String) (pagesArg : List Page) (w : World) : World :=
  let w0 := { w with queue := (addBatchToQueue w.queue batchId) }
  let finish := fun (wx : World) =>
    { wx with queue := (removeBatchFromQueue wx.queue batchId) }
  if jsTrim cfg.apiKey = "" then finish w0
  else
    match pollBatchStatus cfg env.poll with
    | (.httpError _, _, _) => finish w0
    | (.timedOut, _, _) => finish w0
    | (.ok st, _, _) =>
      if st.status = "completed" then
        match env.download st.outputFileId with
        | .error _ => finish w0
        | .ok lines =>
          match processResults lines with
          | .error _ => finish w0
          | .ok translationsMap =>
            let finalTranslations :=
              assembleFinalResults translationsMap pagesArg.length
            if finalTranslations.length > 0 then
              finish (completeTranslation
                (applyTranslationsWithMode mode w0 pagesArg finalTranslations)
                pagesArg)
            else finish w0
      else finish w0

/-! ## Concrete fixtures used by witnesses and counterexamples -/

/-- A well-formed configuration: key `"key"`, 30-second delay, 5 attempts. -/
def sampleConfig : Config :=
  { apiKey := "key", pollingDelaySec := 30, maxPollingAttempts := 5 }

/-- Scenario A result stream: records arrive in reversed order,
`request-1` before `request-0`. -/
def scenarioALines : List RawLine :=
  [.record "request-1" (.ok "Monde"), .record "request-0" (.ok "Bonjour")]

/-- Scenario A environment: upload and creation succeed, the first poll
reports `completed`, the download yields the reversed stream. -/
def scenarioAEnv : BatchEnv :=
  { upload := .ok "file-1", create := .ok "batch-1",
    poll := fun _ => .ok { status := "completed", outputFileId := some "out-1" },
    download := fun _ => .ok scenarioALines }

/-- A callback that leaves the state alone and does not throw. -/
def inertCallback {σ : Type} (_jobId : String) (s : σ) : σ × Bool :=
  (s, false)

/-- An environment in which the job ends in terminal status `cancelled` but
still exposes a downloadable partial output file (as the remote batch service
does for cancelled jobs with partial results). -/
def cancelledJobEnv : BatchEnv :=
  { upload := .ok "file-1", create := .ok "batch-B",
    poll := fun _ => .ok { status := "cancelled", outputFileId := some "out-1" },
    download := fun _ => .ok [.record "request-0" (.ok "X")] }

/-- Scenario B environment: the upload responds with a non-success status
whose body carries `error.message = "rate limited"`. -/
def uploadFailEnv : BatchEnv :=
  { upload := .error "rate limited", create := .ok "batch-1",
    poll := fun _ => .ok { status := "completed", outputFileId := some "out-1" },
    download := fun _ => .error "unreachable" }

/-- An environment in which the job is created but every status poll fails at
the HTTP level. -/
def pollFailEnv : BatchEnv :=
  { upload := .ok "file-1", create := .ok "batch-1",
    poll := fun _ => .httpErr "server error",
    download := fun _ => .error "unreachable" }

/-- A one-page journal with nothing in flight. -/
def sampleWorld : World :=
  { journalName := "Journal", queue := ∅,
    pages := [{ id := "p1", name := "Page 1", content := "Hello",
                flags := TranslationFlags.unflagged }],
    newJournals := [] }

/-- The sole surviving page of a two-page batch `B`: its sibling (batch index
0) was deleted after submission, so this page's stored `batchIndex` is 1
while only one page is discovered for the batch. -/
def orphanIndexPage : Page :=
  { id := "p1", name := "Page One", content := "orig",
    flags := { batchId := some "B", batchIndex := some 1,
               queued := some true, completed := some false } }

/-- The environment seen when restoring batch `B`: the job is `completed`
and its result stream holds exactly the successful record `request-1`. -/
def orphanRestoreEnv : BatchEnv :=
  { upload := .ok "unused", create := .ok "unused",
    poll := fun _ => .ok { status := "completed", outputFileId := some "out-1" },
    download := fun _ => .ok [.record "request-1" (.ok "Bonjour")] }

/-- The journal world holding only the orphan page. -/
def orphanWorld : World :=
  { journalName := "Journal", queue := ∅, pages := [orphanIndexPage],
    newJournals := [] }

/-! ## Theorems -/

/-- C6 (counterexample): the claim quantifies over *every* flag state, but
`setTranslationCompletedFlags` only flips `completed`/`queued` and leaves the
batch fields as they are, so starting from a state that has `batchId` set
without `batchIndex` the operation ends in a state violating the
`batchIndex`-iff-`batchId` half of the invariant. -/
theorem markCompleted_from_arbitrary_state_violates_invariant :
    ¬ FlagInvariant (setTranslationCompletedFlags
      { batchId := some "batch-B", batchIndex := none,
        queued := some true, completed := some false }) := by
  decide

/-- C6 (amended): `setTranslationStartedFlags` and `clearTranslationFlags`
establish the flag invariant from any prior state, and
`setTranslationCompletedFlags` preserves it; hence the invariant holds after
each flag operation in every state reachable from the unflagged state. -/
theorem flag_operations_respect_invariant :
    (∀ (f : TranslationFlags) (batchId : String) (batchIndex : Nat),
      FlagInvariant (setTranslationStartedFlags f batchId batchIndex)) ∧
    (∀ f : TranslationFlags, FlagInvariant (clearTranslationFlags f)) ∧
    (∀ f : TranslationFlags, FlagInvariant f →
      FlagInvariant (setTranslationCompletedFlags f)) := by
  refine ⟨?_, ?_, ?_⟩
  · intro f batchId batchIndex
    constructor
    · intro h
      simp [setTranslationStartedFlags] at h
    · simp [setTranslationStartedFlags]
  · intro f
    constructor
    · intro h
      simp [clearTranslationFlags, TranslationFlags.unflagged] at h
    · simp [clearTranslationFlags, TranslationFlags.unflagged]
  · intro f h
    constructor
    · intro _
      simp [setTranslationCompletedFlags]
    · simpa [setTranslationCompletedFlags] using h.2

/-- C6 (witness): the preservation clause applied to the state produced by
`setTranslationStartedFlags` on an unflagged page. -/
theorem flag_operations_respect_invariant_witness :
    FlagInvariant (setTranslationCompletedFlags
      (setTranslationStartedFlags TranslationFlags.unflagged "batch-1" 0)) :=
  flag_operations_respect_invariant.2.2
    (setTranslationStartedFlags TranslationFlags.unflagged "batch-1" 0)
    (by decide)

/-- C7: `setTranslationCompletedFlags` sets `completed := true` and
`queued := false` and changes nothing else on the page: `batchId` and
`batchIndex` keep their values, as do the page's id, name and content. -/
theorem markCompleted_frame (p : Page) :
    (markCompletedPage p).flags.completed = some true ∧
    (markCompletedPage p).flags.queued = some false ∧
    (markCompletedPage p).flags.batchId = p.flags.batchId ∧
    (markCompletedPage p).flags.batchIndex = p.flags.batchIndex ∧
    (markCompletedPage p).id = p.id ∧
    (markCompletedPage p).name = p.name ∧
    (markCompletedPage p).content = p.content := by
  simp [markCompletedPage, setTranslationCompletedFlags]

/-- C8 (counterexample): the registry operations guard on JS truthiness, and
the empty string is falsy, so `addBatchToQueue("")` is a no-op and
`isBatchInQueue("")` stays false — against the claim that `contains(jobId)`
is true after `enqueue(jobId)` for every job identifier. -/
theorem enqueue_empty_id_not_contained :
    isBatchInQueue (addBatchToQueue (∅ : Finset String) "") "" = false := by
  decide

/-- C8 (amended): for every *non-empty* job identifier (the empty string is
falsy and every registry operation treats it as an absent id) and every
registry state: `contains` is true after `enqueue` and false after a matching
`dequeue`; a second `enqueue` of a present id leaves the registry unchanged;
and `dequeue` of an absent id is a no-op. -/
theorem registry_guard (s : Finset String) (jobId : String) (h : jobId ≠ "") :
    isBatchInQueue (addBatchToQueue s jobId) jobId = true ∧
    isBatchInQueue
      (removeBatchFromQueue (addBatchToQueue s jobId) jobId) jobId = false ∧
    addBatchToQueue (addBatchToQueue s jobId) jobId = addBatchToQueue s jobId ∧
    (∀ t : Finset String, jobId ∉ t → removeBatchFromQueue t jobId = t) := by
  refine ⟨?_, ?_, ?_, ?_⟩
  · simp [addBatchToQueue, isBatchInQueue, h]
  · simp [addBatchToQueue, removeBatchFromQueue, isBatchInQueue, h]
  · simp [addBatchToQueue, h, Finset.insert_idem]
  · intro t ht
    simp [removeBatchFromQueue, ht]

/-- C8 (witness): the registry guard at the concrete id `batch-1` and the
empty registry. -/
theorem registry_guard_witness :
    isBatchInQueue (addBatchToQueue (∅ : Finset String) "batch-1") "batch-1"
        = true ∧
    isBatchInQueue
      (removeBatchFromQueue (addBatchToQueue (∅ : Finset String) "batch-1")
        "batch-1") "batch-1" = false ∧
    addBatchToQueue (addBatchToQueue (∅ : Finset String) "batch-1") "batch-1"
        = addBatchToQueue (∅ : Finset String) "batch-1" ∧
    (∀ t : Finset String, "batch-1" ∉ t →
      removeBatchFromQueue t "batch-1" = t) :=
  registry_guard ∅ "batch-1" (by decide)

/-- Skipping a prefix of `n` non-terminal successful polls adds `n` poll
requests and `n` delay intervals in front of whatever the rest of the loop
does. -/
theorem pollAux_skip (poll : Nat → PollResponse) :
    ∀ (n attempt fuel : Nat),
      (∀ i, i < n → isNonTerminalOk (poll (attempt + i)) = true) →
      pollAux poll attempt (n + fuel) =
        ((pollAux poll (attempt + n) fuel).1,
         (pollAux poll (attempt + n) fuel).2.1 + n,
         (pollAux poll (attempt + n) fuel).2.2 + n) := by
  intro n
  induction n with
  | zero => intro attempt fuel _; simp
  | succ n ih =>
    intro attempt fuel h
    have h0 : isNonTerminalOk (poll attempt) = true := by
      simpa using h 0 (Nat.succ_pos n)
    have hstep : n + 1 + fuel = (n + fuel) + 1 := by omega
    rw [hstep]
    cases hp : poll attempt with
    | httpErr msg => rw [hp] at h0; simp [isNonTerminalOk] at h0
    | ok st =>
      rw [hp] at h0
      have hterm : isTerminal st.status = false := by
        simpa [isNonTerminalOk] using h0
      have hrest : ∀ i, i < n →
          isNonTerminalOk (poll (attempt + 1 + i)) = true := by
        intro i hi
        have := h (i + 1) (by omega)
        simpa [Nat.add_assoc, Nat.add_comm 1 i] using this
      have := ih (attempt + 1) fuel hrest
      simp only [pollAux, hp, hterm, Bool.false_eq_true, if_false]
      rw [this]
      have hacc : attempt + 1 + n = attempt + (n + 1) := by omega
      rw [hacc]
      simp [Nat.add_assoc]

/-- C4: the polling loop.  (1) If the first `n` polls are non-terminal and
poll `n+1` (zero-based index `n`, within the attempt budget) returns a
terminal status, the loop returns that status object immediately after
`n + 1` poll requests and exactly `n` delay intervals — no delay follows the
terminal poll.  (2) If every poll within the budget is non-terminal, the loop
issues `maxPollingAttempts` polls (sleeping after each) and raises the
timeout error, whose message reports the configured duration rounded to
minutes.  (3) A poll whose HTTP response is not ok aborts immediately: no
further poll request is issued and the `Polling Error` is raised. -/
theorem polling_loop_spec (cfg : Config) (poll : Nat → PollResponse) :
    (∀ (n : Nat) (st : BatchStatusObj),
      (∀ i, i < n → isNonTerminalOk (poll i) = true) →
      poll n = .ok st → isTerminal st.status = true →
      n < cfg.maxPollingAttempts →
      pollBatchStatus cfg poll = (.ok st, n + 1, n)) ∧
    ((∀ i, i < cfg.maxPollingAttempts → isNonTerminalOk (poll i) = true) →
      pollBatchStatus cfg poll =
        (.timedOut, cfg.maxPollingAttempts, cfg.maxPollingAttempts) ∧
      pollBatchStatusResult cfg poll = .error (timeoutMessage cfg)) ∧
    (∀ (k : Nat) (msg : String),
      (∀ i, i < k → isNonTerminalOk (poll i) = true) →
      poll k = .httpErr msg → k < cfg.maxPollingAttempts →
      pollBatchStatus cfg poll = (.httpError msg, k + 1, k) ∧
      pollBatchStatusResult cfg poll =
        .error ("Polling Error: " ++ msg)) := by
  refine ⟨?_, ?_, ?_⟩
  · intro n st hpre hp hterm hn
    have hsplit : cfg.maxPollingAttempts = n + (cfg.maxPollingAttempts - n) := by
      omega
    have hfuel : cfg.maxPollingAttempts - n =
        (cfg.maxPollingAttempts - n - 1) + 1 := by omega
    unfold pollBatchStatus
    rw [hsplit, pollAux_skip poll n 0 _ (by simpa using hpre), hfuel]
    simp [pollAux, hp, hterm, Nat.add_comm]
  · intro hpre
    have hrun : pollBatchStatus cfg poll =
        (.timedOut, cfg.maxPollingAttempts, cfg.maxPollingAttempts) := by
      unfold pollBatchStatus
      have := pollAux_skip poll cfg.maxPollingAttempts 0 0
        (by simpa using hpre)
      simpa [pollAux] using this
    exact ⟨hrun, by simp [pollBatchStatusResult, hrun]⟩
  · intro k msg hpre hp hk
    have hsplit : cfg.maxPollingAttempts = k + (cfg.maxPollingAttempts - k) := by
      omega
    have hfuel : cfg.maxPollingAttempts - k =
        (cfg.maxPollingAttempts - k - 1) + 1 := by omega
    have hrun : pollBatchStatus cfg poll = (.httpError msg, k + 1, k) := by
      unfold pollBatchStatus
      rw [hsplit, pollAux_skip poll k 0 _ (by simpa using hpre), hfuel]
      simp [pollAux, hp, Nat.add_comm]
    exact ⟨hrun, by simp [pollBatchStatusResult, hrun]⟩

/-- C4 (witness): three concrete poll sequences with delay 30s and budget 5 —
terminal `completed` on the fourth poll after three non-terminal polls;
always `in_progress` (timeout after 5 polls, reported as 3 minutes); an HTTP
failure on the second poll. -/
theorem polling_loop_spec_witness :
    pollBatchStatus ⟨"key", 30, 5⟩
      (fun i => if i < 3 then .ok ⟨"in_progress", none⟩
                else .ok ⟨"completed", some "out-1"⟩) =
      (.ok ⟨"completed", some "out-1"⟩, 4, 3) ∧
    pollBatchStatusResult ⟨"key", 30, 5⟩ (fun _ => .ok ⟨"in_progress", none⟩) =
      .error "Batch job timed out after 3 minutes." ∧
    pollBatchStatus ⟨"key", 30, 5⟩
      (fun i => if i < 1 then .ok ⟨"in_progress", none⟩
                else .httpErr "bad gateway") =
      (.httpError "bad gateway", 2, 1) := by
  refine ⟨?_, ?_, ?_⟩
  · exact (polling_loop_spec ⟨"key", 30, 5⟩ _).1 3 ⟨"completed", some "out-1"⟩
      (by decide) (by norm_num) (by decide) (by norm_num)
  · have := ((polling_loop_spec ⟨"key", 30, 5⟩
      (fun _ => .ok ⟨"in_progress", none⟩)).2.1 (by intro i _; decide)).2
    simpa [timeoutMessage, timeoutMinutes] using this
  · exact ((polling_loop_spec ⟨"key", 30, 5⟩ _).2.2 1 "bad gateway"
      (by decide) (by norm_num) (by norm_num)).1

/-- Setting a key not yet present via `mapSet` appends the pair. -/
theorem mapSet_of_not_mem (m : List (String × String)) (k v : String)
    (h : ∀ p ∈ m, p.1 ≠ k) : mapSet m k v = m ++ [(k, v)] := by
  have hc : ¬ (m.any (fun p => p.1 = k) = true) := by
    simp only [List.any_eq_true, decide_eq_true_eq, not_exists]
    intro p
    rintro ⟨hp, hpk⟩
    exact h p hp hpk
  simp [mapSet, hc]

/-- When the successful records carry pairwise distinct tags, the map built
by `processResults` is exactly the stream's success pairs appended to the
accumulator. -/
theorem processResultsAux_ok_eq (lines : List RawLine) :
    ∀ (m m' : List (String × String)),
      (successKeys lines).Nodup →
      (∀ p ∈ m, p.1 ∉ successKeys lines) →
      processResultsAux m lines = .ok m' →
      m' = m ++ successPairs lines := by
  induction lines with
  | nil =>
    intro m m' _ _ h
    simp [processResultsAux] at h
    simp [successPairs, h]
  | cons l rest ih =>
    intro m m' hnd hdisj h
    cases l with
    | bad => simp [processResultsAux] at h
    | record cid payload =>
      cases payload with
      | error e =>
        have hsp : successPairs (RawLine.record cid (.error e) :: rest) =
            successPairs rest := by
          simp [successPairs]
        rw [hsp]
        have hk : successKeys (RawLine.record cid (.error e) :: rest) =
            successKeys rest := by
          simp [successKeys, successPairs]
        rw [hk] at hnd hdisj
        exact ih m m' hnd hdisj (by simpa [processResultsAux] using h)
      | ok text =>
        have hsp : successPairs (RawLine.record cid (.ok text) :: rest) =
            (cid, text) :: successPairs rest := by
          simp [successPairs]
        have hk : successKeys (RawLine.record cid (.ok text) :: rest) =
            cid :: successKeys rest := by
          simp [successKeys, successPairs]
        rw [hk] at hnd hdisj
        have hcid : cid ∉ successKeys rest := by
          simpa using hnd.not_mem
        have hndrest : (successKeys rest).Nodup := hnd.of_cons
        have hset : mapSet m cid text = m ++ [(cid, text)] := by
          apply mapSet_of_not_mem
          intro p hp
          exact fun hpk => (hdisj p hp) (by simp [hpk])
        have h' : processResultsAux (m ++ [(cid, text)]) rest = .ok m' := by
          have := h
          simpa [processResultsAux, hset] using this
        have hdisj' : ∀ p ∈ m ++ [(cid, text)], p.1 ∉ successKeys rest := by
          intro p hp
          rcases List.mem_append.mp hp with hp1 | hp2
          · exact fun hc => (hdisj p hp1) (by simp [hc])
          · have : p = (cid, text) := by simpa using hp2
            simpa [this] using hcid
        have := ih (m ++ [(cid, text)]) m' hndrest hdisj' h'
        simp [this, hsp]

/-- Running `processResults` on a stream with pairwise distinct success tags yields
exactly the stream's success pairs. -/
theorem processResults_ok_eq (lines : List RawLine)
    (m : List (String × String)) (hnd : (successKeys lines).Nodup)
    (h : processResults lines = .ok m) : m = successPairs lines := by
  simpa using processResultsAux_ok_eq lines [] m hnd (by simp) h

/-- A `Map.get` hit means the pair is in the association list. -/
theorem mem_of_mapGet_eq_some {m : List (String × String)} {k v : String}
    (h : mapGet m k = some v) : (k, v) ∈ m := by
  unfold mapGet at h
  cases hf : m.find? (fun p => p.1 = k) with
  | none => rw [hf] at h; simp at h
  | some q =>
    rw [hf] at h
    have hmem := List.mem_of_find?_eq_some hf
    have hkey : q.1 = k := by
      have := List.find?_some hf
      simpa using this
    have hval : q.2 = v := by simpa using h
    have : q = (k, v) := by
      cases q
      simp_all
    simpa [this] using hmem

/-- With pairwise distinct keys, membership determines `Map.get`. -/
theorem mapGet_eq_some_of_mem {m : List (String × String)} {k v : String}
    (hnd : (m.map Prod.fst).Nodup) (h : (k, v) ∈ m) :
    mapGet m k = some v := by
  induction m with
  | nil => simp at h
  | cons q rest ih =>
    by_cases hk : q.1 = k
    · have hq : q = (k, v) := by
        rcases List.mem_cons.mp h with h1 | h2
        · exact h1.symm
        · exfalso
          have : k ∈ rest.map Prod.fst :=
            List.mem_map.mpr ⟨(k, v), h2, rfl⟩
          rw [← hk] at this
          exact absurd this (by simpa using hnd.not_mem)
      simp [mapGet, List.find?, hk, hq]
    · have h2 : (k, v) ∈ rest := by
        rcases List.mem_cons.mp h with h1 | h2
        · exact absurd (by simp [← h1]) hk
        · exact h2
      have := ih (by simpa using hnd.of_cons) h2
      simpa [mapGet, List.find?_cons, hk] using this

/-- A `mapGet` miss happens exactly when no pair carries the key. -/
theorem mapGet_eq_none_iff (m : List (String × String)) (k : String) :
    mapGet m k = none ↔ ∀ p ∈ m, p.1 ≠ k := by
  unfold mapGet
  simp [List.find?_eq_none]

/-- With pairwise distinct keys, `Map.get` is invariant under permutation of
the association list. -/
theorem mapGet_perm {m₁ m₂ : List (String × String)} (hp : m₁.Perm m₂)
    (hnd : (m₁.map Prod.fst).Nodup) (k : String) :
    mapGet m₁ k = mapGet m₂ k := by
  have hnd₂ : (m₂.map Prod.fst).Nodup :=
    ((hp.map Prod.fst).nodup_iff).mp hnd
  cases h1 : mapGet m₁ k with
  | some v =>
    have := mem_of_mapGet_eq_some h1
    exact (mapGet_eq_some_of_mem hnd₂ (hp.mem_iff.mp this)).symm
  | none =>
    symm
    rw [mapGet_eq_none_iff] at h1 ⊢
    intro p hp2
    exact h1 p (hp.mem_iff.mpr hp2)

/-- The output of `assembleFinalResults` always has the requested length. -/
theorem assembleFinalResults_length (m : List (String × String)) (n : Nat) :
    (assembleFinalResults m n).length = n := by
  simp [assembleFinalResults]

/-- Position `i` of `assembleFinalResults` is the map hit for `request-{i}`,
or the empty string. -/
theorem assembleFinalResults_getD (m : List (String × String)) (n i : Nat)
    (h : i < n) :
    (assembleFinalResults m n).getD i "" = (mapGet m (requestTag i)).getD "" := by
  unfold assembleFinalResults
  rw [List.getD_eq_getElem?_getD, List.getElem?_map, List.getElem?_range h]
  simp

/-- C1: when the key is configured, upload and creation succeed, polling ends
in terminal status `completed`, and the downloaded stream parses with
pairwise distinct success tags, the batch call returns the created job id and
a results array of exactly the input length whose position `i` is the text of
the successful record tagged `request-{i}` (empty string when that tag is
absent); and the output is invariant under any permutation of the result
stream — order is determined by input position alone, never by arrival
order. -/
theorem batch_call_completed_reassembly {σ : Type} (cfg : Config)
    (env : BatchEnv) (texts : List String) (cb : String → σ → σ × Bool)
    (s : σ) (fid jid : String) (st : BatchStatusObj) (nf nd : Nat)
    (lines : List RawLine) (m : List (String × String))
    (hne : texts ≠ [])
    (hkey : jsTrim cfg.apiKey ≠ "")
    (hup : env.upload = .ok fid) (hcr : env.create = .ok jid)
    (hpoll : pollBatchStatus cfg env.poll = (.ok st, nf, nd))
    (hst : st.status = "completed")
    (hdl : env.download st.outputFileId = .ok lines)
    (hpr : processResults lines = .ok m)
    (hnd : (successKeys lines).Nodup) :
    (callOpenAIBatch cfg env texts cb s).batchId = some jid ∧
    (callOpenAIBatch cfg env texts cb s).translations =
      assembleFinalResults m texts.length ∧
    (callOpenAIBatch cfg env texts cb s).translations.length = texts.length ∧
    (∀ i, i < texts.length →
      (callOpenAIBatch cfg env texts cb s).translations.getD i "" =
        (mapGet (successPairs lines) (requestTag i)).getD "") ∧
    (∀ (lines₂ : List RawLine) (m₂ : List (String × String)),
      lines₂.Perm lines → processResults lines₂ = .ok m₂ →
      assembleFinalResults m₂ texts.length =
        (callOpenAIBatch cfg env texts cb s).translations) := by
  have hm : m = successPairs lines := processResults_ok_eq lines m hnd hpr
  have hout : callOpenAIBatch cfg env texts cb s =
      { batchId := some jid,
        translations := assembleFinalResults m texts.length,
        state := (cb jid s).1,
        errors := [],
        logs := if (cb jid s).2 then ["onBatchCreated callback failed"]
                else [] } := by
    simp [callOpenAIBatch, hkey, hup, hcr, hpoll, hdl, hpr, hst]
  refine ⟨by rw [hout], by rw [hout], ?_, ?_, ?_⟩
  · rw [hout]
    exact assembleFinalResults_length m texts.length
  · intro i hi
    rw [hout]
    show (assembleFinalResults m texts.length).getD i "" = _
    rw [assembleFinalResults_getD m texts.length i hi, hm]
  · intro lines₂ m₂ hperm hpr₂
    have hpairs : (successPairs lines₂).Perm (successPairs lines) :=
      hperm.filterMap _
    have hnd₂ : (successKeys lines₂).Nodup := by
      have hkeys : (successKeys lines₂).Perm (successKeys lines) :=
        hpairs.map Prod.fst
      exact (hkeys.nodup_iff).mpr hnd
    have hm₂ : m₂ = successPairs lines₂ := processResults_ok_eq lines₂ m₂ hnd₂ hpr₂
    rw [hout]
    show assembleFinalResults m₂ texts.length = assembleFinalResults m texts.length
    unfold assembleFinalResults
    apply List.map_congr_left
    intro i _
    rw [hm₂, hm, mapGet_perm hpairs hnd₂ (requestTag i)]

/-- C1 (witness): Scenario A — two inputs, stream delivered in reversed
order; the call returns the job id and length-2 results keyed by tag, and the
in-order stream produces the same output. -/
theorem batch_call_completed_reassembly_witness :
    (callOpenAIBatch sampleConfig scenarioAEnv ["Hello", "World"]
        inertCallback ()).batchId = some "batch-1" ∧
    (callOpenAIBatch sampleConfig scenarioAEnv ["Hello", "World"]
        inertCallback ()).translations =
      assembleFinalResults [("request-1", "Monde"), ("request-0", "Bonjour")] 2 ∧
    (callOpenAIBatch sampleConfig scenarioAEnv ["Hello", "World"]
        inertCallback ()).translations.length = 2 ∧
    (∀ i, i < 2 →
      (callOpenAIBatch sampleConfig scenarioAEnv ["Hello", "World"]
          inertCallback ()).translations.getD i "" =
        (mapGet (successPairs scenarioALines) (requestTag i)).getD "") ∧
    (∀ (lines₂ : List RawLine) (m₂ : List (String × String)),
      lines₂.Perm scenarioALines → processResults lines₂ = .ok m₂ →
      assembleFinalResults m₂ 2 =
        (callOpenAIBatch sampleConfig scenarioAEnv ["Hello", "World"]
            inertCallback ()).translations) :=
  batch_call_completed_reassembly sampleConfig scenarioAEnv ["Hello", "World"]
    inertCallback () "file-1" "batch-1"
    { status := "completed", outputFileId := some "out-1" } 1 0
    scenarioALines [("request-1", "Monde"), ("request-0", "Bonjour")]
    (by simp) (by decide) rfl rfl (by decide) rfl rfl (by rfl) (by decide)

/-- C3 (counterexample): a job that ends in terminal status `cancelled` does
not by itself abort the call — `waitForBatchCompletion` only shows an error
notification and returns, and the call proceeds to download.  When the
cancelled job's partial output file downloads and parses, the call returns
the job id and the assembled partial results instead of
`{jobId: null, results: []}`, and the error report is the status
notification, not a consolidated failure message. -/
theorem cancelled_job_not_null_counterexample :
    (pollBatchStatus sampleConfig cancelledJobEnv.poll).1 =
      .ok { status := "cancelled", outputFileId := some "out-1" } ∧
    (callOpenAIBatch sampleConfig cancelledJobEnv ["hello"]
        (inertCallback (σ := Unit)) ()).batchId = some "batch-B" ∧
    (callOpenAIBatch sampleConfig cancelledJobEnv ["hello"]
        (inertCallback (σ := Unit)) ()).translations = ["X"] ∧
    (callOpenAIBatch sampleConfig cancelledJobEnv ["hello"]
        (inertCallback (σ := Unit)) ()).errors =
      ["Batch job failed with status: cancelled"] := by
  refine ⟨by decide, ?_, ?_, ?_⟩ <;> rfl

/-- C3 (amended): whenever an exception is actually thrown in steps 1–6 —
upload or creation responds non-success, a poll request fails at the HTTP
level, the attempt budget is exhausted, the download responds non-success,
or the result stream fails to parse — the call returns
`{jobId: null, results: []}` and its last error report is the single
consolidated `Batch translation failed: …` message.  (A terminal status
other than `completed` is, by itself, only an error notification; it aborts
the call only when a subsequent step throws.) -/
theorem batch_call_exception_returns_null {σ : Type} (cfg : Config)
    (env : BatchEnv) (texts : List String) (cb : String → σ → σ × Bool)
    (s : σ)
    (hkey : jsTrim cfg.apiKey ≠ "")
    (hfail :
      (∃ mu, env.upload = .error mu) ∨
      (∃ fid mc, env.upload = .ok fid ∧ env.create = .error mc) ∨
      (∃ fid jid m nf nd, env.upload = .ok fid ∧ env.create = .ok jid ∧
        pollBatchStatus cfg env.poll = (.httpError m, nf, nd)) ∨
      (∃ fid jid nf nd, env.upload = .ok fid ∧ env.create = .ok jid ∧
        pollBatchStatus cfg env.poll = (.timedOut, nf, nd)) ∨
      (∃ fid jid st nf nd mdl, env.upload = .ok fid ∧ env.create = .ok jid ∧
        pollBatchStatus cfg env.poll = (.ok st, nf, nd) ∧
        env.download st.outputFileId = .error mdl) ∨
      (∃ fid jid st nf nd lines mpr, env.upload = .ok fid ∧
        env.create = .ok jid ∧
        pollBatchStatus cfg env.poll = (.ok st, nf, nd) ∧
        env.download st.outputFileId = .ok lines ∧
        processResults lines = .error mpr)) :
    (callOpenAIBatch cfg env texts cb s).batchId = none ∧
    (callOpenAIBatch cfg env texts cb s).translations = [] ∧
    ∃ em, (callOpenAIBatch cfg env texts cb s).errors.getLast? =
      some ("Batch translation failed: " ++ em) := by
  rcases hfail with ⟨mu, hup⟩ | ⟨fid, mc, hup, hcr⟩ |
    ⟨fid, jid, msg, nf, nd, hup, hcr, hpoll⟩ |
    ⟨fid, jid, nf, nd, hup, hcr, hpoll⟩ |
    ⟨fid, jid, st, nf, nd, mdl, hup, hcr, hpoll, hdl⟩ |
    ⟨fid, jid, st, nf, nd, lines, mpr, hup, hcr, hpoll, hdl, hpr⟩
  · refine ⟨?_, ?_, "File Upload Failed: " ++ mu, ?_⟩ <;>
      simp [callOpenAIBatch, hkey, hup]
    rw [← String.append_assoc]
    rfl
  · refine ⟨?_, ?_, "Batch Creation Failed: " ++ mc, ?_⟩ <;>
      simp [callOpenAIBatch, hkey, hup, hcr]
    rw [← String.append_assoc]
    rfl
  · refine ⟨?_, ?_, "Polling Error: " ++ msg, ?_⟩ <;>
      simp [callOpenAIBatch, hkey, hup, hcr, hpoll]
    rw [← String.append_assoc]
    rfl
  · refine ⟨?_, ?_, timeoutMessage cfg, ?_⟩ <;>
      simp [callOpenAIBatch, hkey, hup, hcr, hpoll]
  · refine ⟨?_, ?_, "Failed to download results: " ++ mdl, ?_⟩ <;>
      simp [callOpenAIBatch, hkey, hup, hcr, hpoll, hdl, List.getLast?_concat]
    rw [← String.append_assoc]
    rfl
  · refine ⟨?_, ?_, mpr, ?_⟩ <;>
      simp [callOpenAIBatch, hkey, hup, hcr, hpoll, hdl, hpr, List.getLast?_concat]

/-- C3 (witness): Scenario B — the upload fails with `rate limited`; the call
returns `{jobId: null, results: []}` and a consolidated error report. -/
theorem batch_call_exception_returns_null_witness :
    (callOpenAIBatch sampleConfig uploadFailEnv ["Hello"]
        (inertCallback (σ := Unit)) ()).batchId = none ∧
    (callOpenAIBatch sampleConfig uploadFailEnv ["Hello"]
        (inertCallback (σ := Unit)) ()).translations = [] ∧
    ∃ em, (callOpenAIBatch sampleConfig uploadFailEnv ["Hello"]
        (inertCallback (σ := Unit)) ()).errors.getLast? =
      some ("Batch translation failed: " ++ em) :=
  batch_call_exception_returns_null sampleConfig uploadFailEnv ["Hello"]
    inertCallback () (by decide) (Or.inl ⟨"rate limited", rfl⟩)

/-- C5: a throwing `onBatchCreated` callback is logged and swallowed — with
the same state effect, the run with a throwing callback returns the same
`batchId`, the same translations, the same final state and the same error
reports as the run whose callback returned normally; the only difference is
the one extra log entry recording the callback failure. -/
theorem callback_failure_swallowed {σ : Type} (cfg : Config) (env : BatchEnv)
    (texts : List String) (f : String → σ → σ) (s : σ) (fid jid : String)
    (hkey : jsTrim cfg.apiKey ≠ "")
    (hup : env.upload = .ok fid) (hcr : env.create = .ok jid) :
    (callOpenAIBatch cfg env texts (fun id t => (f id t, true)) s).batchId =
      (callOpenAIBatch cfg env texts (fun id t => (f id t, false)) s).batchId ∧
    (callOpenAIBatch cfg env texts (fun id t => (f id t, true)) s).translations =
      (callOpenAIBatch cfg env texts (fun id t => (f id t, false)) s).translations ∧
    (callOpenAIBatch cfg env texts (fun id t => (f id t, true)) s).state =
      (callOpenAIBatch cfg env texts (fun id t => (f id t, false)) s).state ∧
    (callOpenAIBatch cfg env texts (fun id t => (f id t, true)) s).errors =
      (callOpenAIBatch cfg env texts (fun id t => (f id t, false)) s).errors ∧
    (callOpenAIBatch cfg env texts (fun id t => (f id t, true)) s).logs =
      "onBatchCreated callback failed" ::
        (callOpenAIBatch cfg env texts (fun id t => (f id t, false)) s).logs := by
  rcases hpoll : pollBatchStatus cfg env.poll with ⟨res, nf, nd⟩
  cases res with
  | httpError m =>
    refine ⟨?_, ?_, ?_, ?_, ?_⟩ <;> simp [callOpenAIBatch, hkey, hup, hcr, hpoll]
  | timedOut =>
    refine ⟨?_, ?_, ?_, ?_, ?_⟩ <;> simp [callOpenAIBatch, hkey, hup, hcr, hpoll]
  | ok st =>
    cases hdl : env.download st.outputFileId with
    | error mdl =>
      refine ⟨?_, ?_, ?_, ?_, ?_⟩ <;>
        simp [callOpenAIBatch, hkey, hup, hcr, hpoll, hdl]
    | ok lines =>
      cases hpr : processResults lines with
      | error mpr =>
        refine ⟨?_, ?_, ?_, ?_, ?_⟩ <;>
          simp [callOpenAIBatch, hkey, hup, hcr, hpoll, hdl, hpr]
      | ok m =>
        refine ⟨?_, ?_, ?_, ?_, ?_⟩ <;>
          simp [callOpenAIBatch, hkey, hup, hcr, hpoll, hdl, hpr]

/-- C5 (witness): the throwing and the normally-returning callback produce
identical outcomes on the Scenario A environment, with the failure logged. -/
theorem callback_failure_swallowed_witness :
    (callOpenAIBatch sampleConfig scenarioAEnv ["Hello"]
        (fun id (t : Unit) => ((fun _ u => u) id t, true)) ()).batchId =
      (callOpenAIBatch sampleConfig scenarioAEnv ["Hello"]
        (fun id (t : Unit) => ((fun _ u => u) id t, false)) ()).batchId ∧
    (callOpenAIBatch sampleConfig scenarioAEnv ["Hello"]
        (fun id (t : Unit) => ((fun _ u => u) id t, true)) ()).translations =
      (callOpenAIBatch sampleConfig scenarioAEnv ["Hello"]
        (fun id (t : Unit) => ((fun _ u => u) id t, false)) ()).translations ∧
    (callOpenAIBatch sampleConfig scenarioAEnv ["Hello"]
        (fun id (t : Unit) => ((fun _ u => u) id t, true)) ()).state =
      (callOpenAIBatch sampleConfig scenarioAEnv ["Hello"]
        (fun id (t : Unit) => ((fun _ u => u) id t, false)) ()).state ∧
    (callOpenAIBatch sampleConfig scenarioAEnv ["Hello"]
        (fun id (t : Unit) => ((fun _ u => u) id t, true)) ()).errors =
      (callOpenAIBatch sampleConfig scenarioAEnv ["Hello"]
        (fun id (t : Unit) => ((fun _ u => u) id t, false)) ()).errors ∧
    (callOpenAIBatch sampleConfig scenarioAEnv ["Hello"]
        (fun id (t : Unit) => ((fun _ u => u) id t, true)) ()).logs =
      "onBatchCreated callback failed" ::
        (callOpenAIBatch sampleConfig scenarioAEnv ["Hello"]
          (fun id (t : Unit) => ((fun _ u => u) id t, false)) ()).logs :=
  callback_failure_swallowed sampleConfig scenarioAEnv ["Hello"]
    (fun _ u => u) () "file-1" "batch-1" (by decide) rfl rfl

/-- Loop characterization of the position-indexed `createPageUpdates`:
starting at index `i`, the produced updates are exactly the transformed
entries of the pages whose translation at their position is non-whitespace,
in order, and one warning is recorded per skipped page, in order. -/
theorem createPageUpdatesByPositionGo_spec (ts : List String)
    (f : String → String → String) :
    ∀ (pages : List Page) (i : Nat),
      (createPageUpdatesByPositionGo ts f pages i).out =
        (pages.enumFrom i).filterMap (fun ip =>
          if jsTrim (jsIdx ts ip.1) = "" then none
          else some ⟨ip.2.id, f ip.2.content (jsIdx ts ip.1)⟩) ∧
      (createPageUpdatesByPositionGo ts f pages i).warns =
        (pages.enumFrom i).filterMap (fun ip =>
          if jsTrim (jsIdx ts ip.1) = "" then
            some ("Translation returned empty for page \x22" ++ ip.2.name ++
              "\x22. Skipping this page.")
          else none) := by
  intro pages
  induction pages with
  | nil => intro i; simp [createPageUpdatesByPositionGo]
  | cons p rest ih =>
    intro i
    have hrec := ih (i + 1)
    by_cases h : jsTrim (jsIdx ts i) = "" <;>
      simp [createPageUpdatesByPositionGo, List.enumFrom, h, hrec.1, hrec.2]

/-- C9: emptiness handling of the apply helpers.  For the position-indexed
`createPageUpdates`: a page whose translation is empty or whitespace-only is
excluded from the update array and contributes exactly one warning, every
other page is included (transformed, in order), and the loop never aborts —
the output is the full filtered traversal.  The same holds for the
flag-indexed `createTranslatedPagesData`, where each page's translation is
read at its stored `batchIndex`. -/
theorem empty_translations_skipped_with_warning (pages : List Page)
    (ts : List String) (f : String → String → String) :
    (createPageUpdatesByPosition pages ts f).out =
      pages.enum.filterMap (fun ip =>
        if jsTrim (jsIdx ts ip.1) = "" then none
        else some ⟨ip.2.id, f ip.2.content (jsIdx ts ip.1)⟩) ∧
    (createPageUpdatesByPosition pages ts f).warns =
      pages.enum.filterMap (fun ip =>
        if jsTrim (jsIdx ts ip.1) = "" then
          some ("Translation returned empty for page \x22" ++ ip.2.name ++
            "\x22. Skipping this page.")
        else none) ∧
    (createTranslatedPagesData pages ts).out =
      pages.filterMap (fun p =>
        match p.flags.batchIndex with
        | none => none
        | some k =>
          if jsTrim (jsIdx ts k) = "" then none
          else some ⟨p.name ++ " (Translated)", jsIdx ts k⟩) ∧
    (createTranslatedPagesData pages ts).warns =
      pages.filterMap (fun p =>
        match p.flags.batchIndex with
        | none => none
        | some k =>
          if jsTrim (jsIdx ts k) = "" then
            some ("Translation returned empty for page \x22" ++ p.name ++
              "\x22 (batch index " ++ toString k ++ "). Skipping this page.")
          else none) := by
  refine ⟨(createPageUpdatesByPositionGo_spec ts f pages 0).1,
    (createPageUpdatesByPositionGo_spec ts f pages 0).2, ?_, ?_⟩ <;>
  · induction pages with
    | nil => simp [createTranslatedPagesData]
    | cons p rest ih =>
      cases hbi : p.flags.batchIndex with
      | none => simp [createTranslatedPagesData, hbi, ih]
      | some k =>
        by_cases h : jsTrim (jsIdx ts k) = "" <;>
          simp [createTranslatedPagesData, hbi, h, ih]

/-- C2 (code evaluation at the failing input): batch `B` originally covered
two pages; the page with stored `batchIndex = 1` survives while its sibling
was deleted, so only one page is discovered.  The completed job's stream
contains the successful record `request-1` with text `Bonjour`, yet the
restoration leaves the page content untouched (the reassembly was truncated
to `pages.length = 1`, so index 1 reads as empty and the page is skipped) —
and still marks the page completed. -/
theorem restoration_truncates_high_batch_index :
    processResults [.record "request-1" (.ok "Bonjour")] =
      .ok [("request-1", "Bonjour")] ∧
    assembleFinalResults [("request-1", "Bonjour")] 1 = [""] ∧
    attemptBatchRestoration sampleConfig orphanRestoreEnv "replace" "B"
        [orphanIndexPage] orphanWorld =
      { journalName := "Journal", queue := ∅,
        pages := [{ id := "p1", name := "Page One", content := "orig",
                    flags := { batchId := some "B", batchIndex := some 1,
                               queued := some false,
                               completed := some true } }],
        newJournals := [] } := by
  refine ⟨rfl, rfl, ?_⟩
  decide

/-- After a successful job creation, any later failure (poll HTTP error,
timeout, download error, parse error) makes `callOpenAIBatch` return a null
id and empty translations while keeping the state the callback produced. -/
theorem callOpenAIBatch_post_create_failure {σ : Type} (cfg : Config)
    (env : BatchEnv) (texts : List String) (cb : String → σ → σ × Bool)
    (s : σ) (fid jid : String)
    (hkey : jsTrim cfg.apiKey ≠ "")
    (hup : env.upload = .ok fid) (hcr : env.create = .ok jid)
    (hfail :
      (∃ m nf nd, pollBatchStatus cfg env.poll = (.httpError m, nf, nd)) ∨
      (∃ nf nd, pollBatchStatus cfg env.poll = (.timedOut, nf, nd)) ∨
      (∃ st nf nd mdl, pollBatchStatus cfg env.poll = (.ok st, nf, nd) ∧
        env.download st.outputFileId = .error mdl) ∨
      (∃ st nf nd lines mpr, pollBatchStatus cfg env.poll = (.ok st, nf, nd) ∧
        env.download st.outputFileId = .ok lines ∧
        processResults lines = .error mpr)) :
    (callOpenAIBatch cfg env texts cb s).batchId = none ∧
    (callOpenAIBatch cfg env texts cb s).translations = [] ∧
    (callOpenAIBatch cfg env texts cb s).state = (cb jid s).1 := by
  rcases hfail with ⟨m, nf, nd, hpoll⟩ | ⟨nf, nd, hpoll⟩ |
    ⟨st, nf, nd, mdl, hpoll, hdl⟩ | ⟨st, nf, nd, lines, mpr, hpoll, hdl, hpr⟩
  · refine ⟨?_, ?_, ?_⟩ <;> simp [callOpenAIBatch, hkey, hup, hcr, hpoll]
  · refine ⟨?_, ?_, ?_⟩ <;> simp [callOpenAIBatch, hkey, hup, hcr, hpoll]
  · refine ⟨?_, ?_, ?_⟩ <;> simp [callOpenAIBatch, hkey, hup, hcr, hpoll, hdl]
  · refine ⟨?_, ?_, ?_⟩ <;>
      simp [callOpenAIBatch, hkey, hup, hcr, hpoll, hdl, hpr]

/-- C10: when job creation succeeds (so `onBatchCreated` has added id `B` to
the Active Job Registry) but a later step fails, the call returns a null
`batchId`; `translateJournal` dequeues only truthy ids, so `B` stays in the
registry, and the context-menu restore guard then refuses any resume attempt
for `B` in this process as already being monitored. -/
theorem failed_call_leaks_registry_entry (cfg : Config) (env : BatchEnv)
    (mode : String) (w : World) (fid B : String)
    (hkey : jsTrim cfg.apiKey ≠ "")
    (hup : env.upload = .ok fid) (hcr : env.create = .ok B) (hB : B ≠ "")
    (hpages : w.pages ≠ [])
    (hfail :
      (∃ m nf nd, pollBatchStatus cfg env.poll = (.httpError m, nf, nd)) ∨
      (∃ nf nd, pollBatchStatus cfg env.poll = (.timedOut, nf, nd)) ∨
      (∃ st nf nd mdl, pollBatchStatus cfg env.poll = (.ok st, nf, nd) ∧
        env.download st.outputFileId = .error mdl) ∨
      (∃ st nf nd lines mpr, pollBatchStatus cfg env.poll = (.ok st, nf, nd) ∧
        env.download st.outputFileId = .ok lines ∧
        processResults lines = .error mpr)) :
    (callOpenAIBatch cfg env (w.pages.map (fun p => p.content))
        translateJournalCallback w).batchId = none ∧
    B ∈ (translateJournal cfg env mode w).queue ∧
    restoreGuardRefuses (translateJournal cfg env mode w) B = true := by
  obtain ⟨hid, htr, hstate⟩ :=
    callOpenAIBatch_post_create_failure cfg env
      (w.pages.map (fun p => p.content)) translateJournalCallback w fid B
      hkey hup hcr hfail
  have hlen : ¬ ((w.pages.map (fun p => p.content)).length = 0) := by
    simpa using hpages
  have hTJ : translateJournal cfg env mode w =
      (callOpenAIBatch cfg env (w.pages.map (fun p => p.content))
        translateJournalCallback w).state := by
    simp only [translateJournal]
    rw [if_neg hlen]
    simp [htr, hid, jsTruthy]
  have hq : (callOpenAIBatch cfg env (w.pages.map (fun p => p.content))
      translateJournalCallback w).state.queue = insert B w.queue := by
    rw [hstate]
    simp [translateJournalCallback, addBatchToQueue, hB]
  refine ⟨hid, ?_, ?_⟩
  · rw [hTJ, hq]
    exact Finset.mem_insert_self B w.queue
  · rw [restoreGuardRefuses, hTJ, hq]
    simp [isBatchInQueue, hB]

/-- C10 (witness): with a one-page journal, a created job `batch-1`, and
every poll failing at the HTTP level, the id is left in the registry and the
restore guard refuses it. -/
theorem failed_call_leaks_registry_entry_witness :
    (callOpenAIBatch sampleConfig pollFailEnv
        (sampleWorld.pages.map (fun p => p.content))
        translateJournalCallback sampleWorld).batchId = none ∧
    "batch-1" ∈
      (translateJournal sampleConfig pollFailEnv "replace" sampleWorld).queue ∧
    restoreGuardRefuses
      (translateJournal sampleConfig pollFailEnv "replace" sampleWorld)
      "batch-1" = true :=
  failed_call_leaks_registry_entry sampleConfig pollFailEnv "replace"
    sampleWorld "file-1" "batch-1" (by decide) rfl rfl (by decide)
    (by decide) (Or.inl ⟨"server error", 1, 0, rfl⟩)

end JournalTranslator
